import Mathlib

/-!
Shallow embedding of the MLModels conversion pipeline and registry
(update_registry.py, convert_gemma_to_coreml.py, convert_opus_to_coreml.py,
test_conversion.py), with theorems checking the specification's claims.
-/

/-- A registry entry: the JSON metadata dict passed to `update_registry`.
The source treats it as an opaque dict with an `id` key; we keep `id`, the
`version` field the spec's examples use, and a bag of remaining fields. -/
structure Entry where
  id : String
  version : String
  payload : List (String × String)
deriving DecidableEq, Repr

/-- The registry document: `update_registry.py` lines 15/17 build
`\x7b"models": [], "lastUpdated": ""\x7d`; line 31 stamps `lastUpdated`. -/
structure Registry where
  models : List Entry
  lastUpdated : String
deriving DecidableEq, Repr

/-- The scan of `update_registry.py` lines 20-24: enumerate the models list,
remember the index of the first entry whose `id` matches, break on the first
match. `none` plays the role of the `-1` sentinel. -/
def findModelIdx : List Entry → String → Option Nat
  | [], _ => none
  | m :: rest, targetId =>
      if m.id = targetId then some 0
      else (findModelIdx rest targetId).map (· + 1)

/-- Lines 26-29 of `update_registry.py`: replace the matched entry in place
if the scan found one, else append the new entry at the end. -/
def update_models (models : List Entry) (e : Entry) : List Entry :=
  match findModelIdx models e.id with
  | some i => models.set i e
  | none => models ++ [e]

/-- The three possible states of `dist/registry.json` on disk, as
distinguished by `update_registry.py` lines 10-17: absent, present but
invalid JSON, or present with a parsed document. -/
inductive DiskState where
  | missing
  | corrupt
  | valid (r : Registry)
deriving DecidableEq, Repr

/-- Lines 10-17 of `update_registry.py`: a missing file or a
`json.JSONDecodeError` both yield the empty registry document. -/
def load_or_empty : DiskState → Registry
  | DiskState.missing => { models := [], lastUpdated := "" }
  | DiskState.corrupt => { models := [], lastUpdated := "" }
  | DiskState.valid r => r

/-- `update_registry(model_metadata)` (lines 7-34): load or default the
document, upsert the entry, stamp `lastUpdated` with today's date, and
return the document that is written back. -/
def update_registry (disk : DiskState) (e : Entry) (today : String) : Registry :=
  let registry := load_or_empty disk
  { models := update_models registry.models e, lastUpdated := today }

theorem findModelIdx_eq_none (ms : List Entry) (tid : String)
    (h : ∀ m ∈ ms, m.id ≠ tid) : findModelIdx ms tid = none := by
  induction ms with
  | nil => rfl
  | cons m rest ih =>
      have hm : m.id ≠ tid := h m (List.mem_cons_self m rest)
      have hrest : findModelIdx rest tid = none :=
        ih (fun x hx => h x (List.mem_cons_of_mem m hx))
      simp [findModelIdx, hm, hrest]

theorem update_models_cons (m : Entry) (ms : List Entry) (e : Entry) :
    update_models (m :: ms) e =
      if m.id = e.id then e :: ms else m :: update_models ms e := by
  by_cases h : m.id = e.id
  · simp [update_models, findModelIdx, h]
  · cases hfind : findModelIdx ms e.id with
    | none => simp [update_models, findModelIdx, h, hfind]
    | some i => simp [update_models, findModelIdx, h, hfind]

theorem update_models_append_of_absent (ms : List Entry) (e : Entry)
    (h : ∀ m ∈ ms, m.id ≠ e.id) : update_models ms e = ms ++ [e] := by
  unfold update_models
  rw [findModelIdx_eq_none ms e.id h]

theorem update_models_first (pre post : List Entry) (a e : Entry)
    (hpre : ∀ m ∈ pre, m.id ≠ e.id) (ha : a.id = e.id) :
    update_models (pre ++ a :: post) e = pre ++ e :: post := by
  induction pre with
  | nil => simp [update_models_cons, ha]
  | cons m rest ih =>
      have hm : m.id ≠ e.id := hpre m (List.mem_cons_self m rest)
      have hrest : ∀ x ∈ rest, x.id ≠ e.id :=
        fun x hx => hpre x (List.mem_cons_of_mem m hx)
      simp [List.cons_append, update_models_cons, hm, ih hrest]

theorem update_models_idem (ms : List Entry) (e : Entry) :
    update_models (update_models ms e) e = update_models ms e := by
  induction ms with
  | nil =>
      simp [update_models, findModelIdx]
  | cons m rest ih =>
      by_cases h : m.id = e.id
      · simp [update_models_cons, h]
      · simp [update_models_cons, h, ih]

theorem exists_first_match (ms : List Entry) (tid : String)
    (h : 0 < ms.countP (fun m => m.id == tid)) :
    ∃ pre a post, ms = pre ++ a :: post ∧ (∀ m ∈ pre, m.id ≠ tid) ∧ a.id = tid := by
  induction ms with
  | nil => simp at h
  | cons m rest ih =>
      by_cases hm : m.id = tid
      · exact ⟨[], m, rest, rfl, by simp, hm⟩
      · have hcount : 0 < rest.countP (fun x => x.id == tid) := by
          have hb : (m.id == tid) = false := by
            simp [hm]
          simpa [List.countP_cons, hb] using h
        obtain ⟨pre, a, post, heq, hpre, ha⟩ := ih hcount
        refine ⟨m :: pre, a, post, by simp [heq], ?_, ha⟩
        intro x hx
        rcases List.mem_cons.mp hx with hx | hx
        · simpa [hx] using hm
        · exact hpre x hx

/-- C1: for a duplicate-free models list containing exactly one entry with id
"en-es", upserting an entry with id "en-es" and version "2.0.0" yields exactly
one "en-es" entry, that entry is the new one (version "2.0.0"), no id appears
twice, the length is unchanged, the first match found by the linear scan is
replaced in place with all other entries keeping their relative order, and an
entry whose id is absent is appended at the end. -/
theorem registry_upsert_replaces_unique (ms : List Entry) (e : Entry)
    (hid : e.id = "en-es") (hver : e.version = "2.0.0")
    (hnodup : (ms.map Entry.id).Nodup)
    (hone : ms.countP (fun m => m.id == "en-es") = 1) :
    (update_models ms e).countP (fun m => m.id == "en-es") = 1
    ∧ (∀ m ∈ update_models ms e, m.id = "en-es" → m = e ∧ m.version = "2.0.0")
    ∧ ((update_models ms e).map Entry.id).Nodup
    ∧ (update_models ms e).length = ms.length
    ∧ (∃ pre a post, ms = pre ++ a :: post ∧ (∀ m ∈ pre, m.id ≠ "en-es")
        ∧ a.id = "en-es" ∧ update_models ms e = pre ++ e :: post)
    ∧ (∀ (ms2 : List Entry) (e2 : Entry), (∀ m ∈ ms2, m.id ≠ e2.id) →
        update_models ms2 e2 = ms2 ++ [e2]) := by
  have hpos : 0 < ms.countP (fun m => m.id == "en-es") := by omega
  obtain ⟨pre, a, post, heq, hpre, ha⟩ := exists_first_match ms ("en-es") hpos
  have hupd : update_models ms e = pre ++ e :: post := by
    rw [heq]
    exact update_models_first pre post a e
      (fun m hm => by rw [hid]; exact hpre m hm) (ha.trans hid.symm)
  have hmap : (update_models ms e).map Entry.id = ms.map Entry.id := by
    rw [hupd, heq]
    simp [hid, ha]
  have hposts : ∀ m ∈ post, m.id ≠ "en-es" := by
    rw [heq] at hone
    simp [List.countP_append, List.countP_cons, ha] at hone
    intro m hm hcontra
    have hp : 0 < post.countP (fun x => x.id == "en-es") :=
      List.countP_pos_iff.mpr ⟨m, hm, by simp [hcontra]⟩
    omega
  refine ⟨?_, ?_, ?_, ?_, ⟨pre, a, post, heq, hpre, ha, hupd⟩,
    fun ms2 e2 h2 => update_models_append_of_absent ms2 e2 h2⟩
  · rw [hupd]
    rw [heq] at hone
    simp only [List.countP_append, List.countP_cons] at hone ⊢
    simp only [ha, hid, beq_self_eq_true, if_pos] at hone ⊢
    omega
  · intro m hm hmid
    rw [hupd] at hm
    rcases List.mem_append.mp hm with hm | hm
    · exact absurd hmid (hpre m hm)
    · rcases List.mem_cons.mp hm with hm | hm
      · exact ⟨hm, by rw [hm, hver]⟩
      · exact absurd hmid (hposts m hm)
  · rw [hmap]
    exact hnodup
  · rw [hupd, heq]
    simp

/-- C1 witness: instantiated at a one-entry registry holding id "en-es"
version "1.0.0" and the upserted entry with version "2.0.0". -/
theorem registry_upsert_replaces_unique_witness :
    (update_models [⟨"en-es", "1.0.0", []⟩] ⟨"en-es", "2.0.0", []⟩).countP
      (fun m => m.id == "en-es") = 1 :=
  (registry_upsert_replaces_unique [⟨"en-es", "1.0.0", []⟩] ⟨"en-es", "2.0.0", []⟩
    rfl rfl (by simp) (by decide)).1

/-- C2: upserting the same entry twice (the second upsert reading the document
the first one wrote) leaves the models list identical to a single upsert, in
particular of the same length; only lastUpdated is re-stamped. -/
theorem registry_upsert_idempotent (disk : DiskState) (e : Entry) (d1 d2 : String) :
    (update_registry (DiskState.valid (update_registry disk e d1)) e d2).models
        = (update_registry disk e d1).models
    ∧ (update_registry (DiskState.valid (update_registry disk e d1)) e d2).models.length
        = (update_registry disk e d1).models.length
    ∧ (update_registry (DiskState.valid (update_registry disk e d1)) e d2).lastUpdated = d2 := by
  refine ⟨?_, ?_, rfl⟩ <;>
    simp [update_registry, load_or_empty, update_models_idem]

/-- C3: a registry file holding invalid JSON, or no registry file at all, is
treated as the empty registry, and the upsert succeeds (the embedded operation
is total), persisting a document whose models list is exactly the single
upserted entry. -/
theorem registry_upsert_corruption_tolerant (e : Entry) (d : String) :
    update_registry DiskState.corrupt e d = { models := [e], lastUpdated := d }
    ∧ update_registry DiskState.missing e d = { models := [e], lastUpdated := d } := by
  constructor <;> rfl

/-- C10: when the loaded models list already contains duplicate ids, the upsert
replaces only the first matching entry and leaves every later duplicate in
place, so a single upsert does not restore the at-most-one-entry-per-id
invariant: upserting into a two-duplicate list still leaves two entries with
the same id. -/
theorem registry_upsert_keeps_duplicates (pre post : List Entry) (a e : Entry)
    (hpre : ∀ m ∈ pre, m.id ≠ e.id) (ha : a.id = e.id) :
    update_models (pre ++ a :: post) e = pre ++ e :: post
    ∧ (∀ m ∈ post, m ∈ update_models (pre ++ a :: post) e)
    ∧ update_models [⟨"en-es", "1.0.0", []⟩, ⟨"en-es", "1.0.0", []⟩] ⟨"en-es", "2.0.0", []⟩
        = [⟨"en-es", "2.0.0", []⟩, ⟨"en-es", "1.0.0", []⟩]
    ∧ 1 < (update_models [⟨"en-es", "1.0.0", []⟩, ⟨"en-es", "1.0.0", []⟩]
        ⟨"en-es", "2.0.0", []⟩).countP (fun m => m.id == "en-es") := by
  have h1 := update_models_first pre post a e hpre ha
  refine ⟨h1, ?_, by decide, by decide⟩
  intro m hm
  rw [h1]
  exact List.mem_append_right pre (List.mem_cons_of_mem e hm)

/-- C10 witness: instantiated with an empty clean segment and one later
duplicate of id "en-es". -/
theorem registry_upsert_keeps_duplicates_witness :
    update_models ([] ++ (⟨"en-es", "1.0.0", []⟩ : Entry) :: [⟨"en-es", "1.0.0", []⟩])
        ⟨"en-es", "2.0.0", []⟩
      = [] ++ (⟨"en-es", "2.0.0", []⟩ : Entry) :: [⟨"en-es", "1.0.0", []⟩] :=
  (registry_upsert_keeps_duplicates [] [⟨"en-es", "1.0.0", []⟩] ⟨"en-es", "1.0.0", []⟩
    ⟨"en-es", "2.0.0", []⟩ (by simp) rfl).1

/-- A tensor dimension as declared to the converter: either a fixed size, or a
bounded flexible dimension (`ct.RangeDim`) with a lower bound, an upper bound
and an optional declared default size. -/
inductive Dim where
  | fixed (size : Nat)
  | flexRange (lowerBound upperBound : Nat) (default : Option Nat)
deriving DecidableEq, Repr

/-- Element types used by the declared tensor inputs/outputs. -/
inductive DType where
  | int32
  | float16
  | float32
deriving DecidableEq, Repr

/-- One declared tensor input (`ct.TensorType`): name, shape, element type. -/
structure TensorDecl where
  name : String
  shape : List Dim
  dtype : DType
deriving DecidableEq, Repr

/-- `convert_gemma_to_coreml.py` lines 204-208: the shape used for both token
inputs, `ct.Shape(shape=(1, ct.RangeDim(lower_bound=1, upper_bound=max_length,
default=128)))`. -/
def gemmaInputShape (max_length : Nat) : List Dim :=
  [Dim.fixed 1, Dim.flexRange 1 max_length (some 128)]

/-- `convert_gemma_to_coreml.py` lines 222-235: the two declared inputs of the
converted model, `input_ids` and `attention_mask`, both int32 with the shape
of lines 204-208. -/
def gemmaInputs (max_length : Nat) : List TensorDecl :=
  [ { name := "input_ids", shape := gemmaInputShape max_length, dtype := DType.int32 },
    { name := "attention_mask", shape := gemmaInputShape max_length, dtype := DType.int32 } ]

/-- `convert_opus_to_coreml.py` lines 193-196: the declared encoder inputs,
both with shape `(1, ct.RangeDim(1, 512))` (no declared default). -/
def opusEncoderInputs : List TensorDecl :=
  [ { name := "input_ids", shape := [Dim.fixed 1, Dim.flexRange 1 512 none],
      dtype := DType.int32 },
    { name := "attention_mask", shape := [Dim.fixed 1, Dim.flexRange 1 512 none],
      dtype := DType.int32 } ]

/-- `convert_opus_to_coreml.py` lines 216-220: the declared decoder inputs.
`decoder_input_ids` is declared `(1, ct.RangeDim(1, 512))`, `encoder_hidden_states`
is `(1, ct.RangeDim(1, 512), d_model)` float32, and `encoder_attention_mask`
is `(1, ct.RangeDim(1, 512))`. `d_model` is the model's hidden width
(`self.model.config.d_model`), a run-time value we take as a parameter. -/
def opusDecoderInputs (d_model : Nat) : List TensorDecl :=
  [ { name := "decoder_input_ids", shape := [Dim.fixed 1, Dim.flexRange 1 512 none],
      dtype := DType.int32 },
    { name := "encoder_hidden_states",
      shape := [Dim.fixed 1, Dim.flexRange 1 512 none, Dim.fixed d_model],
      dtype := DType.float32 },
    { name := "encoder_attention_mask", shape := [Dim.fixed 1, Dim.flexRange 1 512 none],
      dtype := DType.int32 } ]

/-- C5 counterexample: at the requested maximum length L = 1 (which satisfies
L ≥ 1) the produced token-input shape declares the default 128 on its sequence
dimension, and 128 does not lie within the bounds 1..1, refuting the claim that
for every L ≥ 1 the declared default lies within 1..L. -/
theorem gemma_shape_default_out_of_bounds :
    gemmaInputShape 1 = [Dim.fixed 1, Dim.flexRange 1 1 (some 128)]
    ∧ ¬ (128 ≤ 1) := by
  constructor
  · rfl
  · decide

/-- C5 (amended): for every requested maximum length L ≥ 128 both declared
token-tensor inputs have the 2-D shape batch 1 by sequence, where the sequence
dimension is a bounded range with lower bound 1, upper bound L, and declared
default 128, which lies within 1..L. (For 1 ≤ L < 128 the shape is the same
but the default 128 falls outside the bounds.) -/
theorem gemma_shape_policy_amended (L : Nat) (hL : 128 ≤ L) :
    (∀ t ∈ gemmaInputs L, t.shape = [Dim.fixed 1, Dim.flexRange 1 L (some 128)])
    ∧ 1 ≤ 128 ∧ 128 ≤ L := by
  refine ⟨?_, by omega, hL⟩
  intro t ht
  rcases List.mem_cons.mp ht with h | h
  · rw [h]; rfl
  · rcases List.mem_cons.mp h with h | h
    · rw [h]; rfl
    · exact absurd h (List.not_mem_nil t)

/-- C5 witness: the amended claim instantiated at L = 512, the converter's
default maximum sequence length. -/
theorem gemma_shape_policy_amended_witness :
    (∀ t ∈ gemmaInputs 512, t.shape = [Dim.fixed 1, Dim.flexRange 1 512 (some 128)])
    ∧ 1 ≤ 128 ∧ 128 ≤ 512 :=
  gemma_shape_policy_amended 512 (by decide)

/-- C6 counterexample: the declared shape of the decoder's token-id input is
batch 1 by a bounded range 1..512 — a flexible dimension, not the fixed
sequence length 1 the claim states (only the tracing dummy has length 1). -/
theorem opus_decoder_ids_not_fixed_length :
    (opusDecoderInputs 512).map TensorDecl.shape
      = [[Dim.fixed 1, Dim.flexRange 1 512 none],
         [Dim.fixed 1, Dim.flexRange 1 512 none, Dim.fixed 512],
         [Dim.fixed 1, Dim.flexRange 1 512 none]]
    ∧ Dim.flexRange 1 512 none ≠ Dim.fixed 1 := by
  constructor
  · rfl
  · decide

/-- C6 (amended): for every hidden width d_model, the decoder artifact declares
`decoder_input_ids` with sequence dimension the bounded range 1..512 (the same
bounded range as the encoder's sequence dimension, not a fixed length of 1),
`encoder_hidden_states` with that same bounded sequence range plus a fixed
trailing dimension equal to d_model, and `encoder_attention_mask` with the
same bounded sequence range 1..512. -/
theorem opus_decoder_declared_shapes (d_model : Nat) :
    opusDecoderInputs d_model
      = [ { name := "decoder_input_ids",
            shape := [Dim.fixed 1, Dim.flexRange 1 512 none], dtype := DType.int32 },
          { name := "encoder_hidden_states",
            shape := [Dim.fixed 1, Dim.flexRange 1 512 none, Dim.fixed d_model],
            dtype := DType.float32 },
          { name := "encoder_attention_mask",
            shape := [Dim.fixed 1, Dim.flexRange 1 512 none], dtype := DType.int32 } ]
    ∧ (∀ t ∈ opusEncoderInputs, t.shape = [Dim.fixed 1, Dim.flexRange 1 512 none]) := by
  constructor
  · rfl
  · intro t ht
    rcases List.mem_cons.mp ht with h | h
    · rw [h]
    · rcases List.mem_cons.mp h with h | h
      · rw [h]
      · exact absurd h (List.not_mem_nil t)

/-- The `--quantize` choice of `convert_gemma_to_coreml.py` after the CLI maps
"none" to Python None (lines 335-338, 386). -/
inductive QuantMode where
  | float16
  | int8
  | noQuant
deriving DecidableEq, Repr

/-- The observable effects of `convert_to_coreml` in
`convert_gemma_to_coreml.py` lines 200-277, in program order: the base
`ct.convert` call with its compute precision, the
`ct.compression_utils.affine_quantize_weights(..., mode="linear_symmetric",
dtype=np.int8)` pass, the metadata stamping, and `coreml_model.save`. -/
inductive GemmaEvent where
  | convertBase (precision : DType)
  | quantizeWeightsInt8
  | setMetadata
  | saveArtifact
deriving DecidableEq, Repr

/-- Lines 211-219 of `convert_gemma_to_coreml.py`: the compute precision
chosen for the base conversion ("int8" also converts at FLOAT16, quantizing
afterwards). -/
def gemmaComputePrecision : QuantMode → DType
  | QuantMode.float16 => DType.float16
  | QuantMode.int8 => DType.float16
  | QuantMode.noQuant => DType.float32

/-- The event trace of `convert_to_coreml` (lines 222-267): `ct.convert`, then
— only when quantize = "int8" — the affine weight-quantization pass, then
metadata stamping, then the save. `quantizeRaises` is the oracle for an
exception inside the quantization pass; the function has no try/except, so an
exception there propagates and nothing after it runs. -/
def gemma_convert_events (quantize : QuantMode) (quantizeRaises : Bool) : List GemmaEvent :=
  if quantize = QuantMode.int8 then
    if quantizeRaises then
      [GemmaEvent.convertBase (gemmaComputePrecision quantize)]
    else
      [GemmaEvent.convertBase (gemmaComputePrecision quantize),
       GemmaEvent.quantizeWeightsInt8, GemmaEvent.setMetadata, GemmaEvent.saveArtifact]
  else
    [GemmaEvent.convertBase (gemmaComputePrecision quantize),
     GemmaEvent.setMetadata, GemmaEvent.saveArtifact]

/-- C7 counterexample: in int8 mode, when the quantization pass raises, the
trace contains no save at all — the base artifact has not been saved before
the quantization pass, refuting the claim that the base conversion is saved
first and survives a quantization failure. -/
theorem gemma_int8_no_save_before_quantize :
    gemma_convert_events QuantMode.int8 true = [GemmaEvent.convertBase DType.float16]
    ∧ GemmaEvent.saveArtifact ∉ gemma_convert_events QuantMode.int8 true := by
  constructor
  · rfl
  · decide

/-- C7 (amended): in int8 mode the pipeline first completes the base
half-precision conversion in memory, then applies the affine symmetric 8-bit
weight quantization as a distinct second pass over the converted model, and
saves the artifact only after that pass; the successful trace is convert,
quantize, stamp metadata, save, while a failure in the quantization pass
aborts the conversion before any artifact has been saved to disk. -/
theorem gemma_int8_second_pass_before_save :
    gemma_convert_events QuantMode.int8 false
      = [GemmaEvent.convertBase DType.float16, GemmaEvent.quantizeWeightsInt8,
         GemmaEvent.setMetadata, GemmaEvent.saveArtifact]
    ∧ gemma_convert_events QuantMode.int8 true = [GemmaEvent.convertBase DType.float16]
    ∧ GemmaEvent.saveArtifact ∉ gemma_convert_events QuantMode.int8 true
    ∧ GemmaEvent.quantizeWeightsInt8 ∉ gemma_convert_events QuantMode.float16 false := by
  refine ⟨rfl, rfl, by decide, by decide⟩

/-- The console-visible actions of the batch loop in `convert_opus_to_coreml.py`
`main`, lines 308-324: for each model, load, convert, and the per-model
success line, or the per-model failure line when an exception is caught; the
final completion line is printed after the loop. -/
inductive ConvAction where
  | loadModel (name : String)
  | convertModel (name : String)
  | printOk (name : String)
  | printFail (name : String)
  | printComplete
deriving DecidableEq, Repr

/-- One iteration of the loop body (lines 316-322): `converter.load_model()`
then `converter.convert_to_coreml(...)` inside try, the success print, and the
except branch that prints the failure and continues. `loadRaises` and
`convertRaises` are the oracles for an exception in each call. -/
def convertOne (name : String) (loadRaises convertRaises : String → Bool) : List ConvAction :=
  if loadRaises name then
    [ConvAction.loadModel name, ConvAction.printFail name]
  else if convertRaises name then
    [ConvAction.loadModel name, ConvAction.convertModel name, ConvAction.printFail name]
  else
    [ConvAction.loadModel name, ConvAction.convertModel name, ConvAction.printOk name]

/-- The whole batch loop plus the final completion print (lines 308-324). -/
def mainBatch (models : List String) (loadRaises convertRaises : String → Bool) :
    List ConvAction :=
  match models with
  | [] => [ConvAction.printComplete]
  | name :: rest =>
      convertOne name loadRaises convertRaises ++ mainBatch rest loadRaises convertRaises

/-- C8: processing the batch in order, a model whose load raises is reported
as failed and the loop continues with the next identifier: for the 3-model
batch where only the second raises during loading, the trace converts models
1 and 3, prints a failure only for model 2, attempts model 3 after model 2
fails, and ends with the completion message; moreover for every batch and
every failure pattern the trace ends with the completion message. -/
theorem opus_batch_fault_isolation :
    mainBatch ["m1", "m2", "m3"] (fun n => n == "m2") (fun _ => false)
      = [ConvAction.loadModel ("m1"), ConvAction.convertModel ("m1"),
         ConvAction.printOk ("m1"),
         ConvAction.loadModel ("m2"), ConvAction.printFail ("m2"),
         ConvAction.loadModel ("m3"), ConvAction.convertModel ("m3"),
         ConvAction.printOk ("m3"),
         ConvAction.printComplete]
    ∧ (∀ (models : List String) (lr cr : String → Bool),
        ∃ front, mainBatch models lr cr = front ++ [ConvAction.printComplete]) := by
  constructor
  · decide
  · intro models lr cr
    induction models with
    | nil => exact ⟨[], rfl⟩
    | cons name rest ih =>
        obtain ⟨front, hfront⟩ := ih
        exact ⟨convertOne name lr cr ++ front, by simp [mainBatch, hfront]⟩

/-- The boolean outcome of `test_model_loading` in `test_conversion.py`
lines 26-41: whether `ct.models.MLModel(model_path)` succeeded. -/
def test_model_loading (loadOk : Bool) : Bool := loadOk

/-- `test_model_metadata` (lines 44-78) only prints and always returns True. -/
def test_model_metadata : Bool := true

/-- `test_inference` (lines 81-128): returns whether `model.predict`
succeeded; the exception is caught and reported, never re-raised. -/
def test_inference (inferOk : Bool) : Bool := inferOk

/-- `test_compute_units` (lines 131-165): every per-configuration exception is
caught and tabulated; the function always returns True. -/
def test_compute_units : Bool := true

/-- `estimate_memory_usage` (lines 168-195) always returns True. -/
def estimate_memory_usage : Bool := true

/-- The result of one run of `test_conversion.py` `main`: the process exit
code and the printed pass counter. -/
structure TestReport where
  exitCode : Nat
  testsPassed : Nat
  testsTotal : Nat
deriving DecidableEq, Repr

/-- `test_conversion.py` `main` (lines 198-279): a missing path or a load
failure calls `sys.exit(1)`; after a successful load the remaining tests only
adjust the printed counters and the function returns normally (exit code 0),
with inference skipped when the flag is set. -/
def test_conversion_main (pathExists loadOk inferOk skipInference : Bool) : TestReport :=
  if pathExists = false then
    { exitCode := 1, testsPassed := 0, testsTotal := 0 }
  else if test_model_loading loadOk = false then
    { exitCode := 1, testsPassed := 0, testsTotal := 1 }
  else
    let passedLoad := 1
    let passedMeta := if test_model_metadata then passedLoad + 1 else passedLoad
    let passedInfer :=
      if skipInference then passedMeta
      else if test_inference inferOk then passedMeta + 1 else passedMeta
    let totalInfer := if skipInference then 2 else 3
    let passedCompute := if test_compute_units then passedInfer + 1 else passedInfer
    let passedMem := if estimate_memory_usage then passedCompute + 1 else passedCompute
    { exitCode := 0, testsPassed := passedMem, testsTotal := totalInfer + 2 }

/-- The outcome of `validate_model` in `convert_gemma_to_coreml.py`
lines 280-315: `ct.models.MLModel(model_path)` is outside any try, so a load
failure propagates upward; the `model.predict` call is inside try/except and a
failure there only prints a warning. -/
inductive ValidateResult where
  | loadError
  | ok (inferenceWarned : Bool)
deriving DecidableEq, Repr

/-- `validate_model(model_path, tokenizer)` of `convert_gemma_to_coreml.py`
with oracles for the load and the synthetic inference call. -/
def validate_model (loadOk inferOk : Bool) : ValidateResult :=
  if loadOk = false then ValidateResult.loadError
  else ValidateResult.ok (inferOk = false)

/-- C9: a missing artifact or a load failure makes the validation tool exit
with code 1; once the artifact loads, the exit code is 0 regardless of the
synthetic-inference outcome, the skip flag, or any other downstream warnings;
and in the converter's validator a load failure propagates upward while an
inference failure is reported as a warning only. -/
theorem validation_exit_code_policy :
    (∀ (lo io sk : Bool), (test_conversion_main false lo io sk).exitCode = 1)
    ∧ (∀ (io sk : Bool), (test_conversion_main true false io sk).exitCode = 1)
    ∧ (∀ (io sk : Bool), (test_conversion_main true true io sk).exitCode = 0)
    ∧ (∀ (io : Bool), validate_model false io = ValidateResult.loadError)
    ∧ validate_model true false = ValidateResult.ok true
    ∧ validate_model true true = ValidateResult.ok false := by
  refine ⟨?_, ?_, ?_, ?_, rfl, rfl⟩ <;> decide
